import Mathlib

set_option autoImplicit false

/-!
Shallow embedding of the workspace-template event core:
the reconnecting OpenClaw client (packages/openclaw-client/src/client.ts and
events.ts), the OpenClawBridge reconciler / output accumulator
(apps/api services, openclaw-bridge), the WebSocket broadcast hub
(websocket server module), and the SQLite schema (packages/database).
JavaScript `Map<string, V>` values are modelled as association lists with
first-match lookup, in-place replacement on `set`, and key removal on
`delete`; database tables are modelled as lists of row records; the nanoid
generators behind `ids.run()` / `ids.activity()` are modelled as a fresh-id
counter threaded through the bridge state.
-/

namespace Workspace

/-! Association-list model of a JavaScript Map keyed by strings. -/

/-- Map.get: value of the first entry with the given key, if any. -/
def mapGet {α : Type} : List (String × α) → String → Option α
  | [], _ => none
  | (k, v) :: rest, r => if k = r then some v else mapGet rest r

/-- Map.set: replace the entry with the given key in place, or append a new entry. -/
def mapSet {α : Type} : List (String × α) → String → α → List (String × α)
  | [], k, v => [(k, v)]
  | (k', v') :: rest, k, v =>
      if k' = k then (k, v) :: rest else (k', v') :: mapSet rest k v

/-- Map.delete: drop the entries with the given key. -/
def mapDelete {α : Type} : List (String × α) → String → List (String × α)
  | [], _ => []
  | (k, v) :: rest, r => if k = r then mapDelete rest r else (k, v) :: mapDelete rest r

/-! Event normalizer (packages/openclaw-client/src/events.ts).
The TypeScript `data: Record<string, unknown>` of an agent event is modelled
by the fields the code actually reads: `phase`, `error`, `toolName`, `text`
(each absent-or-string) and `tokens` (absent-or-number, read later by the
bridge as `(data.tokens as number) || 0`); `args` is carried opaquely as an
optional string. -/

structure AgentData where
  phase : Option String
  error : Option String
  toolName : Option String
  args : Option String
  text : Option String
  tokens : Option Nat
  deriving DecidableEq, Repr

/-- AgentEventPayload of types.ts: runId, optional sessionKey, stream, seq, ts, data. -/
structure AgentEventPayload where
  runId : String
  sessionKey : Option String
  stream : String
  seq : Nat
  ts : Nat
  data : AgentData
  deriving DecidableEq, Repr

/-- One `{ type, text? }` block of a chat message's content array. -/
structure ContentBlock where
  blockType : String
  text : Option String
  deriving DecidableEq, Repr

structure ChatMessage where
  role : String
  content : List ContentBlock
  deriving DecidableEq, Repr

/-- ChatEventPayload of types.ts: runId, sessionKey, seq, state, optional message. -/
structure ChatEventPayload where
  runId : String
  sessionKey : String
  seq : Nat
  state : String
  message : Option ChatMessage
  deriving DecidableEq, Repr

/-- A raw wire event. types.ts declares `type ∈ {agent, chat, session, heartbeat}`
with the payload shape determined by the type tag, so the event is modelled as a
tagged sum (the TS code casts `event.payload` according to `event.type`). -/
inductive RawEvent where
  | agent (p : AgentEventPayload)
  | chat (p : ChatEventPayload)
  | session
  | heartbeat
  deriving DecidableEq, Repr

/-- The closed set of typed domain events emitted by OpenClawEventEmitter. -/
inductive NormalizedEvent where
  | lifecycleStart (runId sessionKey : String) (data : AgentData)
  | lifecycleEnd (runId sessionKey : String) (data : AgentData)
  | lifecycleError (runId sessionKey : String) (error : String)
  | toolCall (runId toolName : String) (args : Option String)
  | assistantDelta (runId text : String)
  | assistantFinal (runId text : String)
  deriving DecidableEq, Repr

/-- processAgentEvent: destructures `{ runId, sessionKey = '', stream, data }` and
dispatches on `stream`, then on `data.phase` for the lifecycle stream. The TS
casts `data.phase as string`, `data.error as string`, `data.toolName as string`,
`data.text as string` are modelled by comparing the optional field against the
string literal (an absent field matches no phase) and defaulting to the empty
string where the value itself is forwarded. -/
def processAgentEvent (p : AgentEventPayload) : Option NormalizedEvent :=
  let sessionKey := p.sessionKey.getD ""
  match p.stream with
  | "lifecycle" =>
      if p.data.phase = some "start" then
        some (.lifecycleStart p.runId sessionKey p.data)
      else if p.data.phase = some "end" then
        some (.lifecycleEnd p.runId sessionKey p.data)
      else if p.data.phase = some "error" then
        some (.lifecycleError p.runId sessionKey (p.data.error.getD ""))
      else none
  | "tool" => some (.toolCall p.runId (p.data.toolName.getD "") p.data.args)
  | "assistant" => some (.assistantDelta p.runId (p.data.text.getD ""))
  | _ => none

/-- Evaluation of `message?.content?.[0]?.text || ''` in processChatEvent. -/
def firstBlockText (m : Option ChatMessage) : String :=
  match m with
  | none => ""
  | some msg =>
      match msg.content with
      | [] => ""
      | b :: _ => b.text.getD ""

/-- processChatEvent: dispatches on `state`, extracting the text of the first
content block with empty-string fallback. -/
def processChatEvent (p : ChatEventPayload) : Option NormalizedEvent :=
  let text := firstBlockText p.message
  if p.state = "delta" then some (.assistantDelta p.runId text)
  else if p.state = "final" then some (.assistantFinal p.runId text)
  else none

/-- processRawEvent as a normalization function: agent payloads go through
processAgentEvent, chat payloads through processChatEvent, and every other
event type produces no domain event. -/
def normalize : RawEvent → Option NormalizedEvent
  | .agent p => processAgentEvent p
  | .chat p => processChatEvent p
  | .session => none
  | .heartbeat => none

/-! Connection manager (packages/openclaw-client/src/client.ts). -/

/-- The `maxReconnectAttempts` field of OpenClawClient. -/
def maxReconnectAttempts : Nat := 10

/-- The `reconnectDelay` base of OpenClawClient, in milliseconds. -/
def reconnectDelay : Nat := 1000

/-- scheduleReconnect: given the current `reconnectAttempts` counter, either
returns none (counter at or past the ceiling: no timer is set) or the pair of
the scheduled delay `reconnectDelay * 2 ^ (attempts - 1)` and the incremented
counter. -/
def scheduleReconnect (reconnectAttempts : Nat) : Option (Nat × Nat) :=
  if maxReconnectAttempts ≤ reconnectAttempts then none
  else
    let attempts := reconnectAttempts + 1
    some (reconnectDelay * 2 ^ (attempts - 1), attempts)

/-- disconnect() sets the attempt counter to the ceiling to suppress reconnection. -/
def disconnectAttemptCounter : Nat := maxReconnectAttempts

/-- The observable steps of the `ws.on('open', ...)` handler of connect(),
in program order. -/
inductive ConnectAction where
  | setConnectingFalse
  | resetAttempts
  | emitConnected
  | sendFrame (frameType : String) (events : List String)
  | resolveConnect
  deriving DecidableEq, Repr

/-- The body of the open handler: clear `isConnecting`, zero the attempt
counter, emit `connected`, send the subscription frame
`{ type: 'subscribe', events: ['agent', 'chat', 'session', 'heartbeat'] }`,
and resolve the connect promise — in this order. -/
def onOpenHandlerActions : List ConnectAction :=
  [ .setConnectingFalse,
    .resetAttempts,
    .emitConnected,
    .sendFrame "subscribe" ["agent", "chat", "session", "heartbeat"],
    .resolveConnect ]

/-- The handshake frame sent by the open handler. -/
def handshakeFrame : ConnectAction :=
  .sendFrame "subscribe" ["agent", "chat", "session", "heartbeat"]

/-! Task-state reconciler and output accumulator (OpenClawBridge of the API
service) over the SQLite schema of packages/database. Timestamps are
abstracted to a single natural-number clock value `now` supplied per handler
invocation (the code calls `new Date()` several times inside one handler; the
distinct wall-clock readings never matter to any claim). -/

inductive TaskStatus where
  | inbox | assigned | in_progress | review | blocked | done | cancelled
  deriving DecidableEq, Repr

inductive AgentStatus where
  | idle | working | waiting | offline
  deriving DecidableEq, Repr

inductive Outcome where
  | success | failed | cancelled
  deriving DecidableEq, Repr

/-- The `action` enum of the activities table. -/
inductive ActivityAction where
  | task_created | task_assigned | task_started | task_completed
  | task_failed | task_blocked | task_unblocked | task_cancelled
  | comment_added | agent_spawned | status_changed
  deriving DecidableEq, Repr

/-- Row of the tasks table, restricted to the columns the bridge reads or
writes (title, priority, columnOrder, sourceChannel and the created/assigned
timestamps are never touched by the event core). -/
structure TaskRow where
  id : String
  status : TaskStatus
  assignedAgentId : Option String
  openclawRunId : Option String
  startedAt : Option Nat
  completedAt : Option Nat
  outcome : Option Outcome
  output : Option String
  tokensUsed : Nat
  deriving DecidableEq, Repr

/-- Row of the agents table, restricted to the columns the bridge touches. -/
structure AgentRow where
  id : String
  status : AgentStatus
  completedTasks : Nat
  totalTokens : Nat
  lastActiveAt : Option Nat
  deriving DecidableEq, Repr

/-- The JSON `details` object of an activity record, modelled by the fields
the bridge writes: runId, outcome, error, toolName, and the literal
`type: 'tool_call'` marker. -/
structure ActivityDetails where
  runId : Option String
  outcome : Option String
  error : Option String
  toolName : Option String
  detailType : Option String
  deriving DecidableEq, Repr

def ActivityDetails.empty : ActivityDetails :=
  ⟨none, none, none, none, none⟩

/-- Row of the activities table. -/
structure ActivityRow where
  id : String
  taskId : Option String
  agentId : Option String
  action : ActivityAction
  details : ActivityDetails
  createdAt : Nat
  deriving DecidableEq, Repr

/-- Row of the output_buffers table. The schema (schema.ts and migrate.ts)
constrains only `id` as PRIMARY KEY; `run_id` is NOT NULL but carries no
UNIQUE constraint and no unique index. -/
structure OutputBufferRow where
  id : String
  taskId : String
  runId : String
  content : String
  lastSeq : Nat
  updatedAt : Nat
  deriving DecidableEq, Repr

/-- WSMessage `type` values of the broadcast protocol (plus the ad hoc pong
the websocket server sends in reply to a client ping). -/
inductive WSMessageType where
  | task_update | agent_update | activity | output_delta
  | block_request | stats_update | pong
  deriving DecidableEq, Repr

/-- The `data` object of a WSMessage, modelled by the identifying fields the
bridge writes and the hub reads; the `changes` / `details` payloads carried
alongside are not read by any component of the event core and are omitted. -/
structure WSData where
  taskId : Option String
  agentId : Option String
  runId : Option String
  delta : Option String
  fullOutput : Option String
  action : Option String
  deriving DecidableEq, Repr

def WSData.empty : WSData :=
  ⟨none, none, none, none, none, none⟩

structure WSMessage where
  msgType : WSMessageType
  data : WSData
  timestamp : Nat
  deriving DecidableEq, Repr

/-- The state owned or written by OpenClawBridge: the four database tables,
the in-memory `outputAccumulators` map, the list of `ws:broadcast` emissions
(in emission order), and the fresh-id counter modelling the nanoid
generators. -/
structure BridgeState where
  tasks : List TaskRow
  agents : List AgentRow
  activities : List ActivityRow
  outputBuffers : List OutputBufferRow
  outputAccumulators : List (String × String)
  emitted : List WSMessage
  nextId : Nat
  deriving DecidableEq, Repr

/-- Fresh id from the nanoid generator model: `tag ++ "_" ++ counter`. The
real `ids.run()` / `ids.activity()` draw random nanoids; freshness (the id
differs from every id already present) is the property relied on, and the
counter realizes it deterministically. -/
def freshId (tag : String) (st : BridgeState) : String × BridgeState :=
  (tag ++ "_" ++ toString st.nextId, { st with nextId := st.nextId + 1 })

/-- findTaskByRunId: `db.query.tasks.findFirst(where eq(tasks.openclawRunId, runId))`. -/
def findTaskByRunId (st : BridgeState) (runId : String) : Option TaskRow :=
  st.tasks.find? (fun t => t.openclawRunId == some runId)

/-- Apply an UPDATE ... WHERE id = taskId to the tasks table. -/
def updateTaskRows (rows : List TaskRow) (taskId : String) (f : TaskRow → TaskRow) :
    List TaskRow :=
  rows.map (fun t => if t.id = taskId then f t else t)

/-- Apply an UPDATE ... WHERE id = agentId to the agents table. -/
def updateAgentRows (rows : List AgentRow) (agentId : String) (f : AgentRow → AgentRow) :
    List AgentRow :=
  rows.map (fun a => if a.id = agentId then f a else a)

/-- createActivity: insert an activity row with a fresh `ids.activity()` id. -/
def createActivity (st : BridgeState) (taskId agentId : Option String)
    (action : ActivityAction) (details : ActivityDetails) (now : Nat) : BridgeState :=
  let (actId, st) := freshId "act" st
  { st with activities :=
      st.activities ++ [⟨actId, taskId, agentId, action, details, now⟩] }

/-- INSERT ... ON CONFLICT DO NOTHING into output_buffers. With no conflict
target, SQLite skips the insert exactly when a uniqueness constraint would be
violated; the only uniqueness constraint on output_buffers is the PRIMARY KEY
on `id`. -/
def insertOutputBuffer (rows : List OutputBufferRow) (r : OutputBufferRow) :
    List OutputBufferRow :=
  if rows.any (fun b => b.id == r.id) then rows else rows ++ [r]

/-- Emit a `ws:broadcast` message (the bridge's EventEmitter `emit`). -/
def emitWS (st : BridgeState) (m : WSMessage) : BridgeState :=
  { st with emitted := st.emitted ++ [m] }

/-- emitTaskUpdate: a task_update message whose data carries the taskId. -/
def emitTaskUpdate (st : BridgeState) (taskId : String) (now : Nat) : BridgeState :=
  emitWS st ⟨.task_update, { WSData.empty with taskId := some taskId }, now⟩

/-- emitAgentUpdate: an agent_update message whose data carries the agentId. -/
def emitAgentUpdate (st : BridgeState) (agentId : String) (now : Nat) : BridgeState :=
  emitWS st ⟨.agent_update, { WSData.empty with agentId := some agentId }, now⟩

/-- handleLifecycleStart: resolve the task, mark it in_progress, mark the
assigned agent working, record a task_started activity, insert the (empty)
output buffer row with ON CONFLICT DO NOTHING, and emit task/agent updates.
Orphan runs (no task) return the state unchanged. -/
def handleLifecycleStart (now : Nat) (runId sessionKey : String) (data : AgentData)
    (st : BridgeState) : BridgeState :=
  match findTaskByRunId st runId with
  | none => st
  | some task =>
    let tasks1 := updateTaskRows st.tasks task.id
      (fun t => { t with status := .in_progress, startedAt := some now })
    let st := { st with tasks := tasks1 }
    let st :=
      match task.assignedAgentId with
      | some aid =>
          let agents1 := updateAgentRows st.agents aid
            (fun a => { a with status := .working, lastActiveAt := some now })
          { st with agents := agents1 }
      | none => st
    let st := createActivity st (some task.id) task.assignedAgentId .task_started
      { ActivityDetails.empty with runId := some runId } now
    let (bufId, st) := freshId "run" st
    let buffers1 := insertOutputBuffer st.outputBuffers ⟨bufId, task.id, runId, "", 0, now⟩
    let st := { st with outputBuffers := buffers1 }
    let st := emitTaskUpdate st task.id now
    match task.assignedAgentId with
    | some aid => emitAgentUpdate st aid now
    | none => st

/-- The inline output-accumulator read-and-remove of handleLifecycleEnd
(`outputAccumulators.get(runId) || ''` then `outputAccumulators.delete(runId)`):
the flushAndClear operation of the spec's Output Accumulator. -/
def flushAndClear (acc : List (String × String)) (runId : String) :
    String × List (String × String) :=
  ((mapGet acc runId).getD "", mapDelete acc runId)

/-- The accumulate step of handleAssistantDelta (`get(runId) || ''`, string
concatenation, `set(runId, updated)`): the append operation of the spec's
Output Accumulator. -/
def appendDelta (acc : List (String × String)) (runId text : String) :
    List (String × String) :=
  mapSet acc runId ((mapGet acc runId).getD "" ++ text)

/-- handleLifecycleEnd: resolve the task, flush the in-memory accumulator,
mark the task done/success with the flushed output and token count, set the
assigned agent idle incrementing completedTasks and totalTokens, record a
task_completed activity, and emit task/agent updates. There is no check of
the task's current status before any of this is applied. -/
def handleLifecycleEnd (now : Nat) (runId sessionKey : String) (data : AgentData)
    (st : BridgeState) : BridgeState :=
  match findTaskByRunId st runId with
  | none => st
  | some task =>
    let (output, acc) := flushAndClear st.outputAccumulators runId
    let st := { st with outputAccumulators := acc }
    let tokens := data.tokens.getD 0
    let tasks1 := updateTaskRows st.tasks task.id
      (fun t => { t with status := .done, outcome := some .success,
                         output := some output, completedAt := some now,
                         tokensUsed := tokens })
    let st := { st with tasks := tasks1 }
    let st :=
      match task.assignedAgentId with
      | some aid =>
          match st.agents.find? (fun a => a.id == aid) with
          | some agent =>
              let agents1 := updateAgentRows st.agents aid
                (fun a => { a with status := .idle,
                                   completedTasks := agent.completedTasks + 1,
                                   totalTokens := agent.totalTokens + tokens,
                                   lastActiveAt := some now })
              { st with agents := agents1 }
          | none => st
      | none => st
    let st := createActivity st (some task.id) task.assignedAgentId .task_completed
      { ActivityDetails.empty with runId := some runId, outcome := some "success" } now
    let st := emitTaskUpdate st task.id now
    match task.assignedAgentId with
    | some aid => emitAgentUpdate st aid now
    | none => st

/-- handleLifecycleError: resolve the task, mark it blocked/failed with the
upstream error text as output, set the assigned agent idle, record a
task_failed activity, and emit task/agent updates. The in-memory
outputAccumulators map is not touched on this path. -/
def handleLifecycleError (now : Nat) (runId sessionKey error : String)
    (st : BridgeState) : BridgeState :=
  match findTaskByRunId st runId with
  | none => st
  | some task =>
    let tasks1 := updateTaskRows st.tasks task.id
      (fun t => { t with status := .blocked, outcome := some .failed,
                         output := some error })
    let st := { st with tasks := tasks1 }
    let st :=
      match task.assignedAgentId with
      | some aid =>
          let agents1 := updateAgentRows st.agents aid (fun a => { a with status := .idle })
          { st with agents := agents1 }
      | none => st
    let st := createActivity st (some task.id) task.assignedAgentId .task_failed
      { ActivityDetails.empty with runId := some runId, error := some error } now
    let st := emitTaskUpdate st task.id now
    match task.assignedAgentId with
    | some aid => emitAgentUpdate st aid now
    | none => st

/-- handleToolCall: resolve the task, record a status_changed activity carrying
the tool-call details, and emit an `activity` broadcast message. -/
def handleToolCall (now : Nat) (runId toolName : String) (args : Option String)
    (st : BridgeState) : BridgeState :=
  match findTaskByRunId st runId with
  | none => st
  | some task =>
    let details : ActivityDetails :=
      { ActivityDetails.empty with
          detailType := some "tool_call"
          toolName := some toolName
          runId := some runId }
    let st := createActivity st (some task.id) task.assignedAgentId .status_changed
      details now
    let msgData : WSData :=
      { WSData.empty with taskId := some task.id, action := some "tool_call" }
    emitWS st ⟨.activity, msgData, now⟩

/-- handleAssistantDelta: append the delta text to the in-memory accumulator
(this happens before the task lookup), then — only when the task resolves —
mirror the accumulated content to the output_buffers rows of the run and emit
an output_delta broadcast message. -/
def handleAssistantDelta (now : Nat) (runId text : String)
    (st : BridgeState) : BridgeState :=
  let updated := (mapGet st.outputAccumulators runId).getD "" ++ text
  let st1 := { st with outputAccumulators := appendDelta st.outputAccumulators runId text }
  match findTaskByRunId st1 runId with
  | none => st1
  | some task =>
    let buffers1 := st1.outputBuffers.map
      (fun b => if b.runId = runId then { b with content := updated, updatedAt := now }
                else b)
    let st1 := { st1 with outputBuffers := buffers1 }
    let msgData : WSData :=
      { WSData.empty with
          taskId := some task.id
          runId := some runId
          delta := some text
          fullOutput := some updated }
    emitWS st1 ⟨.output_delta, msgData, now⟩

/-- handleAssistantFinal is an intentional no-op (final output is captured at
lifecycle end). -/
def handleAssistantFinal (now : Nat) (runId text : String)
    (st : BridgeState) : BridgeState :=
  st

/-- Dispatch of a normalized event to the bridge handler wired to it in
setupEventListeners. -/
def handleEvent (now : Nat) (st : BridgeState) : NormalizedEvent → BridgeState
  | .lifecycleStart r sk d => handleLifecycleStart now r sk d st
  | .lifecycleEnd r sk d => handleLifecycleEnd now r sk d st
  | .lifecycleError r sk e => handleLifecycleError now r sk e st
  | .toolCall r tn a => handleToolCall now r tn a st
  | .assistantDelta r t => handleAssistantDelta now r t st
  | .assistantFinal r t => handleAssistantFinal now r t st

/-- Sequential processing of a list of normalized events in arrival order. -/
def processEvents (now : Nat) (st : BridgeState) (evts : List NormalizedEvent) :
    BridgeState :=
  evts.foldl (handleEvent now) st

/-- The run identity carried by a normalized event. -/
def runIdOf : NormalizedEvent → String
  | .lifecycleStart r _ _ => r
  | .lifecycleEnd r _ _ => r
  | .lifecycleError r _ _ => r
  | .toolCall r _ _ => r
  | .assistantDelta r _ => r
  | .assistantFinal r _ => r

/-! Broadcast hub (the createWebSocketServer module of the API service).
Connections are identified by opaque strings standing for the WebSocket
objects keying the `clients` map. A registered connection is modelled as
open (`send` checks `readyState === OPEN`; a closed socket's entry is removed
by the close handler). -/

/-- The per-connection record of the clients map (WSClient). -/
structure WSClient where
  subscribedTasks : List String
  isAlive : Bool
  deriving DecidableEq, Repr

/-- The clients map: connection id to WSClient record. -/
abbrev HubClients := List (String × WSClient)

/-- Set.add of subscribedTasks: add the task id unless already present. -/
def setAdd (l : List String) (t : String) : List String :=
  if l.contains t then l else l ++ [t]

/-- Set.delete of subscribedTasks. -/
def setRemove (l : List String) (t : String) : List String :=
  l.filter (fun x => x ≠ t)

/-- broadcast: send the message to every registered client. The result is the
list of (connection, message) deliveries in iteration order. -/
def broadcast (cs : HubClients) (m : WSMessage) : List (String × WSMessage) :=
  cs.map (fun c => (c.1, m))

/-- broadcastToTask: send the message to every client whose subscribedTasks
set contains the task id. -/
def broadcastToTask (cs : HubClients) (taskId : String) (m : WSMessage) :
    List (String × WSMessage) :=
  (cs.filter (fun c => c.2.subscribedTasks.contains taskId)).map (fun c => (c.1, m))

/-- The `bridge.on('ws:broadcast')` handler: for task_update and output_delta
messages carrying a truthy `data.taskId` (in JavaScript the empty string is
falsy), first fan out to the task's subscribers, then always broadcast to
every client. The deliveries of both phases are concatenated in send order. -/
def wsBroadcastHandler (cs : HubClients) (m : WSMessage) : List (String × WSMessage) :=
  (if m.msgType = .task_update ∨ m.msgType = .output_delta then
    match m.data.taskId with
    | some tid => if tid ≠ "" then broadcastToTask cs tid m else []
    | none => []
  else []) ++ broadcast cs m

/-- Number of copies of the fanned-out message a given connection receives. -/
def deliveriesTo (sends : List (String × WSMessage)) (conn : String) : Nat :=
  (sends.filter (fun p => p.1 == conn)).length

/-- Messages an observer connection may send (`ws.on('message')` handler). -/
inductive ClientMessage where
  | subscribeTask (taskId : String)
  | unsubscribeTask (taskId : String)
  | ping
  | unknown
  deriving DecidableEq, Repr

/-- handleClientMessage: subscribe:task adds to the connection's set,
unsubscribe:task removes, ping answers with a pong (no registration state
change), anything else is ignored. -/
def handleClientMessage (cs : HubClients) (conn : String) :
    ClientMessage → HubClients
  | .subscribeTask tid =>
      cs.map (fun p => if p.1 = conn
        then (p.1, { p.2 with subscribedTasks := setAdd p.2.subscribedTasks tid })
        else p)
  | .unsubscribeTask tid =>
      cs.map (fun p => if p.1 = conn
        then (p.1, { p.2 with subscribedTasks := setRemove p.2.subscribedTasks tid })
        else p)
  | .ping => cs
  | .unknown => cs

/-- The `ws.on('pong')` handler: mark the connection alive again. -/
def handlePong (cs : HubClients) (conn : String) : HubClients :=
  cs.map (fun p => if p.1 = conn then (p.1, { p.2 with isAlive := true }) else p)

/-- One firing of the 30-second heartbeat interval: every client that did not
answer the previous ping (isAlive still false) is deleted and terminated;
every survivor is marked not-alive and pinged. -/
def heartbeatTick (cs : HubClients) : HubClients :=
  (cs.filter (fun p => p.2.isAlive)).map (fun p => (p.1, { p.2 with isAlive := false }))

/-- The `wss.on('connection')` handler: register the connection with an empty
subscription set, alive. -/
def handleConnection (cs : HubClients) (conn : String) : HubClients :=
  mapSet cs conn ⟨[], true⟩

/-- The `ws.on('close')` handler: drop the connection's entry. -/
def handleClose (cs : HubClients) (conn : String) : HubClients :=
  mapDelete cs conn

/-- The hub events that can mutate registration/subscription state between
two heartbeat firings. -/
inductive HubEvent where
  | pong (conn : String)
  | clientMsg (conn : String) (m : ClientMessage)
  | connection (conn : String)
  | close (conn : String)
  deriving DecidableEq, Repr

def hubStep (cs : HubClients) : HubEvent → HubClients
  | .pong conn => handlePong cs conn
  | .clientMsg conn m => handleClientMessage cs conn m
  | .connection conn => handleConnection cs conn
  | .close conn => handleClose cs conn

def hubSteps (cs : HubClients) (evts : List HubEvent) : HubClients :=
  evts.foldl hubStep cs

/-- The task subscriptions the hub holds for a connection (empty when the
connection is not registered: subscriptions live inside the client record,
so there is no separate subscription store that could dangle). -/
def subscriptionsOf (cs : HubClients) (conn : String) : List String :=
  ((mapGet cs conn).map (fun c => c.subscribedTasks)).getD []

/-! Derived vocabulary for stating the claims. -/

/-- Left-to-right concatenation of a list of texts. -/
def concatTexts (l : List String) : String :=
  l.foldl (fun a b => a ++ b) ""

/-- Run the accumulate step of handleAssistantDelta over a list of
(runId, text) deltas in arrival order. -/
def appendAll (acc : List (String × String)) (deltas : List (String × String)) :
    List (String × String) :=
  deltas.foldl (fun a p => appendDelta a p.1 p.2) acc

/-! Concrete fixtures used to evaluate the embedded code at specific inputs. -/

def emptyBridgeState : BridgeState :=
  { tasks := [], agents := [], activities := [], outputBuffers := [],
    outputAccumulators := [], emitted := [], nextId := 0 }

/-- A task assigned to agent a1 and linked to run r1, already in progress. -/
def taskT1 : TaskRow :=
  { id := "t1", status := .in_progress, assignedAgentId := some "a1",
    openclawRunId := some "r1", startedAt := some 0, completedAt := none,
    outcome := none, output := none, tokensUsed := 0 }

def agentA1 : AgentRow :=
  { id := "a1", status := .working, completedTasks := 0, totalTokens := 0,
    lastActiveAt := none }

def dataNone : AgentData := ⟨none, none, none, none, none, none⟩

/-- Lifecycle-end data carrying `{tokens: 42}`. -/
def dataTokens42 : AgentData := ⟨none, none, none, none, none, some 42⟩

/-- Run r1 in flight: task in progress, "Hello" accumulated. -/
def runningState : BridgeState :=
  { emptyBridgeState with
      tasks := [taskT1]
      agents := [agentA1]
      outputAccumulators := [("r1", "Hello")] }

/-- Run r1 in flight with nothing accumulated yet. -/
def inFlightState : BridgeState :=
  { emptyBridgeState with
      tasks := [taskT1]
      agents := [agentA1] }

/-- Task t1 still only assigned, before any lifecycle start. -/
def preStartState : BridgeState :=
  { emptyBridgeState with
      tasks := [{ taskT1 with status := .assigned, startedAt := none }]
      agents := [agentA1] }

/-- A hub with the single connection c1, subscribed to task t1. -/
def hubOneSubscriber : HubClients := [("c1", ⟨["t1"], true⟩)]

/-- A task_update broadcast message for task t1. -/
def taskUpdateT1 : WSMessage :=
  ⟨.task_update, { WSData.empty with taskId := some "t1" }, 0⟩

/-- An agent lifecycle-start wire payload for run r1. -/
def lifecycleStartPayload : AgentEventPayload :=
  { runId := "r1", sessionKey := some "s1", stream := "lifecycle", seq := 1, ts := 0,
    data := { dataNone with phase := some "start" } }

/-! Library lemmas about the Map model. -/

theorem mapGet_mapSet {α : Type} (m : List (String × α)) (k r : String) (v : α) :
    mapGet (mapSet m k v) r = if r = k then some v else mapGet m r := by
  induction m with
  | nil =>
      by_cases h : k = r
      · simp [mapSet, mapGet, h]
      · simp [mapSet, mapGet, h, Ne.symm h]
  | cons hd tl ih =>
      obtain ⟨k', v'⟩ := hd
      by_cases hk : k' = k
      · subst hk
        by_cases hr : k' = r
        · subst hr
          simp [mapSet, mapGet]
        · simp [mapSet, mapGet, hr, Ne.symm hr]
      · by_cases hr : k' = r
        · subst hr
          simp [mapSet, mapGet, hk]
        · simp [mapSet, mapGet, hk, hr, ih]

theorem mapGet_mapDelete_self {α : Type} (m : List (String × α)) (r : String) :
    mapGet (mapDelete m r) r = none := by
  induction m with
  | nil => rfl
  | cons hd tl ih =>
      obtain ⟨k, v⟩ := hd
      by_cases hk : k = r
      · simpa [mapDelete, hk]
      · simpa [mapDelete, mapGet, hk] using ih

theorem mapDelete_of_mapGet_none {α : Type} (m : List (String × α)) (r : String)
    (h : mapGet m r = none) : mapDelete m r = m := by
  induction m with
  | nil => rfl
  | cons hd tl ih =>
      obtain ⟨k, v⟩ := hd
      by_cases hk : k = r
      · simp [mapGet, hk] at h
      · simp only [mapGet, hk, if_false] at h
        simp [mapDelete, hk, ih h]

/-! Claim C7: reconnection backoff and ceiling. -/

/-- C7: for every attempt n with 1 ≤ n ≤ 10 the scheduled delay is
base * 2 ^ (n - 1); with base 1000 ms the first five delays are 1000, 2000,
4000, 8000, 16000 ms; and once the attempt counter has reached the ceiling
of 10 — as disconnect() forces deterministically — no reconnection attempt
is ever scheduled again. -/
theorem reconnect_backoff_and_ceiling :
    (∀ n : Nat, 1 ≤ n → n ≤ maxReconnectAttempts →
       scheduleReconnect (n - 1) = some (reconnectDelay * 2 ^ (n - 1), n)) ∧
    ((List.range 5).map (fun a => (scheduleReconnect a).map Prod.fst)
       = [some 1000, some 2000, some 4000, some 8000, some 16000]) ∧
    (∀ n : Nat, maxReconnectAttempts ≤ n → scheduleReconnect n = none) ∧
    scheduleReconnect disconnectAttemptCounter = none := by
  refine ⟨?_, by decide, ?_, by decide⟩
  · intro n h1 h10
    have hle : ¬ maxReconnectAttempts ≤ n - 1 := by
      simp only [maxReconnectAttempts] at h10 ⊢; omega
    have hn : n - 1 + 1 = n := Nat.succ_pred_eq_of_pos h1
    simp [scheduleReconnect, hle, hn]
  · intro n h
    simp [scheduleReconnect, h]

/-- Witness for C7 at attempt 3 and at the ceiling. -/
theorem reconnect_backoff_and_ceiling_witness :
    scheduleReconnect (3 - 1) = some (reconnectDelay * 2 ^ (3 - 1), 3) ∧
    scheduleReconnect 10 = none :=
  ⟨reconnect_backoff_and_ceiling.1 3 (by decide) (by decide),
   reconnect_backoff_and_ceiling.2.2.1 10 (by decide)⟩

/-! Claim C8: handshake versus connected signal. -/

/-- C8 counterexample: in the open handler the `connected` event is emitted
strictly before the subscription handshake frame is sent, so the claim that
the handshake precedes the connected signal is false on the code. -/
theorem connected_emitted_before_handshake :
    onOpenHandlerActions
      = [ConnectAction.setConnectingFalse, ConnectAction.resetAttempts,
         ConnectAction.emitConnected, handshakeFrame, ConnectAction.resolveConnect] ∧
    onOpenHandlerActions.indexOf ConnectAction.emitConnected
      < onOpenHandlerActions.indexOf handshakeFrame := by
  exact ⟨rfl, by decide⟩

/-- C8 amended: on every successful connect the open handler sends the fixed
subscription handshake (event classes agent, chat, session, heartbeat) in the
same handler invocation, immediately after emitting `connected` and before
resolving the connect promise — each exactly once. -/
theorem handshake_follows_connected_immediately :
    onOpenHandlerActions.indexOf handshakeFrame
      = onOpenHandlerActions.indexOf ConnectAction.emitConnected + 1 ∧
    onOpenHandlerActions.indexOf handshakeFrame
      < onOpenHandlerActions.indexOf ConnectAction.resolveConnect ∧
    onOpenHandlerActions.count ConnectAction.emitConnected = 1 ∧
    onOpenHandlerActions.count handshakeFrame = 1 := by
  decide

/-! Claim C10: classification of raw events by the normalizer. -/

/-- C10: normalize maps agent/lifecycle events with phase start, end, error to
LifecycleStart, LifecycleEnd, LifecycleError; agent/tool to ToolCall;
agent/assistant to AssistantDelta; chat events with state delta to
AssistantDelta carrying the first content block's text and state final to
AssistantFinal; and every unrecognized combination (unknown agent stream,
unknown lifecycle phase, unknown chat state, session and heartbeat events)
to none, without error. -/
theorem normalize_classification :
    (∀ p : AgentEventPayload, p.stream = "lifecycle" → p.data.phase = some "start" →
       normalize (.agent p)
         = some (.lifecycleStart p.runId (p.sessionKey.getD "") p.data)) ∧
    (∀ p : AgentEventPayload, p.stream = "lifecycle" → p.data.phase = some "end" →
       normalize (.agent p)
         = some (.lifecycleEnd p.runId (p.sessionKey.getD "") p.data)) ∧
    (∀ p : AgentEventPayload, p.stream = "lifecycle" → p.data.phase = some "error" →
       normalize (.agent p)
         = some (.lifecycleError p.runId (p.sessionKey.getD "") (p.data.error.getD ""))) ∧
    (∀ p : AgentEventPayload, p.stream = "tool" →
       normalize (.agent p)
         = some (.toolCall p.runId (p.data.toolName.getD "") p.data.args)) ∧
    (∀ p : AgentEventPayload, p.stream = "assistant" →
       normalize (.agent p) = some (.assistantDelta p.runId (p.data.text.getD ""))) ∧
    (∀ p : ChatEventPayload, p.state = "delta" →
       normalize (.chat p) = some (.assistantDelta p.runId (firstBlockText p.message))) ∧
    (∀ p : ChatEventPayload, p.state = "final" →
       normalize (.chat p) = some (.assistantFinal p.runId (firstBlockText p.message))) ∧
    (∀ p : AgentEventPayload,
       p.stream ≠ "lifecycle" → p.stream ≠ "tool" → p.stream ≠ "assistant" →
       normalize (.agent p) = none) ∧
    (∀ p : AgentEventPayload, p.stream = "lifecycle" →
       p.data.phase ≠ some "start" → p.data.phase ≠ some "end" →
       p.data.phase ≠ some "error" → normalize (.agent p) = none) ∧
    (∀ p : ChatEventPayload, p.state ≠ "delta" → p.state ≠ "final" →
       normalize (.chat p) = none) ∧
    normalize .session = none ∧ normalize .heartbeat = none := by
  refine ⟨?_, ?_, ?_, ?_, ?_, ?_, ?_, ?_, ?_, ?_, rfl, rfl⟩
  · intro p hs hp
    simp [normalize, processAgentEvent, hs, hp]
  · intro p hs hp
    simp [normalize, processAgentEvent, hs, hp]
  · intro p hs hp
    simp [normalize, processAgentEvent, hs, hp]
  · intro p hs
    simp [normalize, processAgentEvent, hs]
  · intro p hs
    simp [normalize, processAgentEvent, hs]
  · intro p hs
    simp [normalize, processChatEvent, hs]
  · intro p hs
    simp [normalize, processChatEvent, hs]
  · intro p h1 h2 h3
    simp only [normalize, processAgentEvent]
  · intro p hs h1 h2 h3
    simp [normalize, processAgentEvent, hs, h1, h2, h3]
  · intro p h1 h2
    simp [normalize, processChatEvent, h1, h2]

/-- Witness for C10: a concrete lifecycle-start payload normalizes to
LifecycleStart. -/
theorem normalize_classification_witness :
    normalize (.agent lifecycleStartPayload)
      = some (.lifecycleStart "r1" "s1" { dataNone with phase := some "start" }) :=
  normalize_classification.1 lifecycleStartPayload rfl rfl

/-! Claim C1: duplicate LifecycleEnd events and agent counters. -/

/-- A LifecycleEnd event for run r1 reporting 42 tokens. -/
def endR1 : NormalizedEvent := .lifecycleEnd "r1" "s1" dataTokens42

/-- C1 is violated by the code: handleLifecycleEnd never checks the task's
current status, so re-delivering the same LifecycleEnd for run r1 (task t1
already done) increments the owning agent's completedTasks to 2 and
totalTokens to 84 and inserts a second task_completed audit record, where a
single delivery yields 1 and 42 and one record. -/
theorem lifecycleEnd_redelivery_double_increments :
    (processEvents 1 runningState [endR1]).agents.map
      (fun a => (a.completedTasks, a.totalTokens)) = [(1, 42)] ∧
    ((processEvents 1 runningState [endR1]).activities.filter
      (fun a => a.action == ActivityAction.task_completed)).length = 1 ∧
    (processEvents 1 runningState [endR1, endR1]).agents.map
      (fun a => (a.completedTasks, a.totalTokens)) = [(2, 84)] ∧
    ((processEvents 1 runningState [endR1, endR1]).activities.filter
      (fun a => a.action == ActivityAction.task_completed)).length = 2 ∧
    (processEvents 1 runningState [endR1]).tasks.map (fun t => t.status)
      = [TaskStatus.done] := by
  decide

/-! Claim C5: accumulator discard at terminal events. -/

/-- C5 is violated by the code: handleLifecycleError never deletes the run's
outputAccumulators entry. After an AssistantDelta for run r1 followed by the
terminal LifecycleError (task t1 resolved and marked blocked/failed), the
accumulator entry for r1 is still present; the LifecycleEnd path by contrast
does discard it. -/
theorem lifecycleError_leaves_accumulator_entry :
    (processEvents 0 inFlightState
      [.assistantDelta "r1" "x", .lifecycleError "r1" "s1" "boom"]).outputAccumulators
      = [("r1", "x")] ∧
    (processEvents 0 inFlightState
      [.assistantDelta "r1" "x", .lifecycleError "r1" "s1" "boom"]).tasks.map
        (fun t => (t.status, t.outcome))
      = [(TaskStatus.blocked, some Outcome.failed)] ∧
    (processEvents 0 inFlightState
      [.assistantDelta "r1" "x", .lifecycleEnd "r1" "s1" dataTokens42]).outputAccumulators
      = [] := by
  decide

/-! Claim C6: at most one OutputBuffer row per run identity. -/

/-- C6 is violated by the code: output_buffers has no uniqueness constraint on
run_id (only the PRIMARY KEY on the freshly generated id), so the
ON CONFLICT DO NOTHING insert of handleLifecycleStart never fires for a
duplicate LifecycleStart of run r1 and a second buffer row with run_id r1 is
created. -/
theorem duplicate_start_creates_second_buffer_row :
    ((processEvents 0 preStartState
      [.lifecycleStart "r1" "s1" dataNone]).outputBuffers.filter
        (fun b => b.runId == "r1")).length = 1 ∧
    ((processEvents 0 preStartState
      [.lifecycleStart "r1" "s1" dataNone,
       .lifecycleStart "r1" "s1" dataNone]).outputBuffers.filter
        (fun b => b.runId == "r1")).length = 2 := by
  decide

/-! Claim C4: orphan events. -/

/-- C4 counterexample: an AssistantDelta for the unknown run r2 does change
the in-memory accumulator state — handleAssistantDelta appends the text
before looking the task up — so the orphan handler is not a complete no-op
as claimed. -/
theorem orphan_delta_changes_accumulator :
    findTaskByRunId emptyBridgeState "r2" = none ∧
    (handleAssistantDelta 0 "r2" "x" emptyBridgeState).outputAccumulators
      = [("r2", "x")] ∧
    (handleAssistantDelta 0 "r2" "x" emptyBridgeState).outputAccumulators
      ≠ emptyBridgeState.outputAccumulators := by
  decide

theorem findTaskByRunId_congr (st st' : BridgeState) (r : String)
    (h : st'.tasks = st.tasks) : findTaskByRunId st' r = findTaskByRunId st r := by
  simp [findTaskByRunId, h]

theorem handleLifecycleStart_orphan (now : Nat) (r sk : String) (d : AgentData)
    (st : BridgeState) (h : findTaskByRunId st r = none) :
    handleLifecycleStart now r sk d st = st := by
  unfold handleLifecycleStart
  rw [h]

theorem handleLifecycleEnd_orphan (now : Nat) (r sk : String) (d : AgentData)
    (st : BridgeState) (h : findTaskByRunId st r = none) :
    handleLifecycleEnd now r sk d st = st := by
  unfold handleLifecycleEnd
  rw [h]

theorem handleLifecycleError_orphan (now : Nat) (r sk err : String)
    (st : BridgeState) (h : findTaskByRunId st r = none) :
    handleLifecycleError now r sk err st = st := by
  unfold handleLifecycleError
  rw [h]

theorem handleToolCall_orphan (now : Nat) (r tn : String) (a : Option String)
    (st : BridgeState) (h : findTaskByRunId st r = none) :
    handleToolCall now r tn a st = st := by
  unfold handleToolCall
  rw [h]

theorem handleAssistantDelta_orphan (now : Nat) (r t : String)
    (st : BridgeState) (h : findTaskByRunId st r = none) :
    handleAssistantDelta now r t st
      = { st with outputAccumulators := appendDelta st.outputAccumulators r t } := by
  have hcongr : findTaskByRunId
      { st with outputAccumulators := appendDelta st.outputAccumulators r t } r = none :=
    (findTaskByRunId_congr
      { st with outputAccumulators := appendDelta st.outputAccumulators r t } st r rfl).trans h
  simp only [handleAssistantDelta]
  rw [hcongr]

/-- C4 amended: for every normalized event whose run identity resolves to no
owning task, the handler leaves tasks, agents, activities, output-buffer
rows, emitted messages and the id counter unchanged and propagates no
failure (every handler is a total function), and the in-memory accumulator
is unchanged for every variant except AssistantDelta, whose handler appends
the delta text to the accumulator before the task lookup. -/
theorem orphan_event_is_noop_except_delta_accumulator
    (now : Nat) (st : BridgeState) (e : NormalizedEvent)
    (h : findTaskByRunId st (runIdOf e) = none) :
    (handleEvent now st e).tasks = st.tasks ∧
    (handleEvent now st e).agents = st.agents ∧
    (handleEvent now st e).activities = st.activities ∧
    (handleEvent now st e).outputBuffers = st.outputBuffers ∧
    (handleEvent now st e).emitted = st.emitted ∧
    (handleEvent now st e).nextId = st.nextId ∧
    (handleEvent now st e).outputAccumulators
      = (match e with
         | .assistantDelta r t => appendDelta st.outputAccumulators r t
         | _ => st.outputAccumulators) := by
  cases e with
  | lifecycleStart r sk d =>
      have he : handleEvent now st (.lifecycleStart r sk d) = st :=
        handleLifecycleStart_orphan now r sk d st h
      rw [he]; exact ⟨rfl, rfl, rfl, rfl, rfl, rfl, rfl⟩
  | lifecycleEnd r sk d =>
      have he : handleEvent now st (.lifecycleEnd r sk d) = st :=
        handleLifecycleEnd_orphan now r sk d st h
      rw [he]; exact ⟨rfl, rfl, rfl, rfl, rfl, rfl, rfl⟩
  | lifecycleError r sk err =>
      have he : handleEvent now st (.lifecycleError r sk err) = st :=
        handleLifecycleError_orphan now r sk err st h
      rw [he]; exact ⟨rfl, rfl, rfl, rfl, rfl, rfl, rfl⟩
  | toolCall r tn a =>
      have he : handleEvent now st (.toolCall r tn a) = st :=
        handleToolCall_orphan now r tn a st h
      rw [he]; exact ⟨rfl, rfl, rfl, rfl, rfl, rfl, rfl⟩
  | assistantDelta r t =>
      have he : handleEvent now st (.assistantDelta r t)
          = { st with outputAccumulators := appendDelta st.outputAccumulators r t } :=
        handleAssistantDelta_orphan now r t st h
      rw [he]; exact ⟨rfl, rfl, rfl, rfl, rfl, rfl, rfl⟩
  | assistantFinal r t =>
      exact ⟨rfl, rfl, rfl, rfl, rfl, rfl, rfl⟩

/-- Witness for C4 at a concrete orphan ToolCall event. -/
theorem orphan_event_is_noop_witness :
    (handleEvent 0 emptyBridgeState (.toolCall "r9" "bash" none)).tasks
      = emptyBridgeState.tasks :=
  (orphan_event_is_noop_except_delta_accumulator 0 emptyBridgeState
    (.toolCall "r9" "bash" none) (by decide)).1

/-! Claim C3: flushAndClear returns the arrival-order concatenation. -/

theorem mapGet_appendDelta (acc : List (String × String)) (k v r : String) :
    mapGet (appendDelta acc k v) r
      = if r = k then some ((mapGet acc k).getD "" ++ v) else mapGet acc r := by
  simp [appendDelta, mapGet_mapSet]

theorem foldl_append_init (l : List String) (s : String) :
    l.foldl (fun a b => a ++ b) s = s ++ concatTexts l := by
  induction l generalizing s with
  | nil => simp [concatTexts, String.append_empty]
  | cons hd tl ih =>
      have hcons : concatTexts (hd :: tl) = hd ++ concatTexts tl := by
        simp only [concatTexts, List.foldl_cons]
        rw [ih ("" ++ hd), String.empty_append]
        rfl
      rw [List.foldl_cons, ih (s ++ hd), hcons, String.append_assoc]

theorem concatTexts_cons (hd : String) (tl : List String) :
    concatTexts (hd :: tl) = hd ++ concatTexts tl := by
  simp only [concatTexts, List.foldl_cons]
  rw [foldl_append_init tl ("" ++ hd), String.empty_append]
  rfl

theorem mapGet_appendAll (deltas : List (String × String))
    (acc : List (String × String)) (r : String) :
    (mapGet (appendAll acc deltas) r).getD ""
      = (mapGet acc r).getD ""
          ++ concatTexts ((deltas.filter (fun p => p.1 == r)).map Prod.snd) := by
  induction deltas generalizing acc with
  | nil => simp [appendAll, concatTexts, String.append_empty]
  | cons hd tl ih =>
      obtain ⟨k, v⟩ := hd
      have hstep : appendAll acc ((k, v) :: tl) = appendAll (appendDelta acc k v) tl := rfl
      by_cases hk : k = r
      · subst hk
        rw [hstep, ih (appendDelta acc k v)]
        have hget : mapGet (appendDelta acc k v) k = some ((mapGet acc k).getD "" ++ v) := by
          simp [mapGet_appendDelta]
        rw [hget]
        simp only [Option.getD_some, List.filter_cons, beq_self_eq_true, if_true,
          List.map_cons]
        rw [concatTexts_cons, String.append_assoc]
      · rw [hstep, ih (appendDelta acc k v)]
        have hget : mapGet (appendDelta acc k v) r = mapGet acc r := by
          simp [mapGet_appendDelta, Ne.symm hk]
        rw [hget]
        have hfilter : ((k, v) :: tl).filter (fun p => p.1 == r)
            = tl.filter (fun p => p.1 == r) := by
          simp [List.filter_cons, hk]
        rw [hfilter]

/-- C3: the flush step of handleLifecycleEnd (get-or-empty then delete)
applied to the accumulator built by appending a sequence of AssistantDelta
texts in arrival order returns exactly the concatenation, in arrival order,
of the texts appended for that run (deltas for other runs interleave
freely, and no reordering by sequence number takes place);
handleAssistantDelta changes the accumulator by exactly that append step;
and for a run with no accumulator entry flushAndClear returns the empty
string with the map untouched rather than raising an error. -/
theorem flushAndClear_returns_arrival_order_concat :
    (∀ (deltas : List (String × String)) (r : String),
       (flushAndClear (appendAll [] deltas) r).1
         = concatTexts ((deltas.filter (fun p => p.1 == r)).map Prod.snd)) ∧
    (∀ (now : Nat) (r t : String) (st : BridgeState),
       (handleAssistantDelta now r t st).outputAccumulators
         = appendDelta st.outputAccumulators r t) ∧
    (∀ (acc : List (String × String)) (r : String), mapGet acc r = none →
       flushAndClear acc r = ("", acc)) := by
  refine ⟨?_, ?_, ?_⟩
  · intro deltas r
    show (mapGet (appendAll [] deltas) r).getD "" = _
    rw [mapGet_appendAll]
    simp [mapGet, String.empty_append]
  · intro now r t st
    simp only [handleAssistantDelta]
    split <;> rfl
  · intro acc r h
    simp [flushAndClear, h, mapDelete_of_mapGet_none acc r h]

/-- Witness for C3 at a concrete delta sequence and at a missing entry. -/
theorem flushAndClear_returns_arrival_order_concat_witness :
    flushAndClear [("rA", "aa")] "rX" = ("", [("rA", "aa")]) ∧
    (flushAndClear (appendAll [] [("rA", "Hel"), ("rB", "zz"), ("rA", "lo ")]) "rA").1
      = concatTexts [("Hel"), ("lo ")] :=
  ⟨flushAndClear_returns_arrival_order_concat.2.2 [("rA", "aa")] "rX" (by decide),
   by
    have h := flushAndClear_returns_arrival_order_concat.1
      [("rA", "Hel"), ("rB", "zz"), ("rA", "lo ")] "rA"
    simpa using h⟩

/-! Claim C2: fan-out delivery counts of the broadcast hub. -/

theorem deliveriesTo_cons (k : String) (msg : WSMessage)
    (rest : List (String × WSMessage)) (conn : String) :
    deliveriesTo ((k, msg) :: rest) conn
      = (if k = conn then 1 else 0) + deliveriesTo rest conn := by
  by_cases h : k = conn
  · simp [deliveriesTo, List.filter_cons, h]
    omega
  · simp [deliveriesTo, List.filter_cons, h]

theorem deliveriesTo_append (a b : List (String × WSMessage)) (conn : String) :
    deliveriesTo (a ++ b) conn = deliveriesTo a conn + deliveriesTo b conn := by
  simp [deliveriesTo, List.filter_append]

theorem broadcast_cons (k : String) (v : WSClient) (tl : HubClients) (m : WSMessage) :
    broadcast ((k, v) :: tl) m = (k, m) :: broadcast tl m := rfl

theorem deliveriesTo_broadcast_zero (cs : HubClients) (m : WSMessage) (conn : String)
    (h : ¬ conn ∈ cs.map Prod.fst) : deliveriesTo (broadcast cs m) conn = 0 := by
  induction cs with
  | nil => rfl
  | cons hd tl ih =>
      obtain ⟨k, v⟩ := hd
      simp only [List.map_cons, List.mem_cons, not_or] at h
      have hk : k ≠ conn := fun hh => h.1 hh.symm
      rw [broadcast_cons, deliveriesTo_cons, if_neg hk, ih h.2]

theorem deliveriesTo_broadcast_one (cs : HubClients) (m : WSMessage)
    (conn : String) (c : WSClient)
    (hnd : (cs.map Prod.fst).Nodup) (hget : mapGet cs conn = some c) :
    deliveriesTo (broadcast cs m) conn = 1 := by
  induction cs with
  | nil => simp [mapGet] at hget
  | cons hd tl ih =>
      obtain ⟨k, v⟩ := hd
      simp only [List.map_cons, List.nodup_cons] at hnd
      rw [broadcast_cons, deliveriesTo_cons]
      by_cases hk : k = conn
      · subst hk
        rw [if_pos rfl, deliveriesTo_broadcast_zero tl m k hnd.1]
      · rw [if_neg hk]
        rw [show mapGet ((k, v) :: tl) conn
          = if k = conn then some v else mapGet tl conn from rfl, if_neg hk] at hget
        rw [ih hnd.2 hget]

theorem broadcastToTask_cons_mem (k : String) (v : WSClient) (tl : HubClients)
    (tid : String) (m : WSMessage) (hs : tid ∈ v.subscribedTasks) :
    broadcastToTask ((k, v) :: tl) tid m = (k, m) :: broadcastToTask tl tid m := by
  simp [broadcastToTask, List.filter_cons, hs]

theorem broadcastToTask_cons_not_mem (k : String) (v : WSClient) (tl : HubClients)
    (tid : String) (m : WSMessage) (hs : tid ∉ v.subscribedTasks) :
    broadcastToTask ((k, v) :: tl) tid m = broadcastToTask tl tid m := by
  simp [broadcastToTask, List.filter_cons, hs]

theorem deliveriesTo_broadcastToTask_zero (cs : HubClients) (tid : String)
    (m : WSMessage) (conn : String) (h : ¬ conn ∈ cs.map Prod.fst) :
    deliveriesTo (broadcastToTask cs tid m) conn = 0 := by
  induction cs with
  | nil => rfl
  | cons hd tl ih =>
      obtain ⟨k, v⟩ := hd
      simp only [List.map_cons, List.mem_cons, not_or] at h
      have hk : k ≠ conn := fun hh => h.1 hh.symm
      by_cases hs : tid ∈ v.subscribedTasks
      · rw [broadcastToTask_cons_mem k v tl tid m hs, deliveriesTo_cons,
            if_neg hk, ih h.2]
      · rw [broadcastToTask_cons_not_mem k v tl tid m hs, ih h.2]

theorem deliveriesTo_broadcastToTask (cs : HubClients) (tid : String) (m : WSMessage)
    (conn : String) (c : WSClient)
    (hnd : (cs.map Prod.fst).Nodup) (hget : mapGet cs conn = some c) :
    deliveriesTo (broadcastToTask cs tid m) conn
      = if tid ∈ c.subscribedTasks then 1 else 0 := by
  induction cs with
  | nil => simp [mapGet] at hget
  | cons hd tl ih =>
      obtain ⟨k, v⟩ := hd
      simp only [List.map_cons, List.nodup_cons] at hnd
      by_cases hk : k = conn
      · subst hk
        rw [show mapGet ((k, v) :: tl) k
          = if k = k then some v else mapGet tl k from rfl, if_pos rfl] at hget
        have hvc : v = c := by injection hget
        rw [hvc]
        by_cases hs : tid ∈ c.subscribedTasks
        · rw [broadcastToTask_cons_mem k c tl tid m hs, deliveriesTo_cons, if_pos rfl,
              deliveriesTo_broadcastToTask_zero tl tid m k hnd.1, if_pos hs]
        · rw [broadcastToTask_cons_not_mem k c tl tid m hs,
              deliveriesTo_broadcastToTask_zero tl tid m k hnd.1, if_neg hs]
      · rw [show mapGet ((k, v) :: tl) conn
          = if k = conn then some v else mapGet tl conn from rfl, if_neg hk] at hget
        by_cases hs : tid ∈ v.subscribedTasks
        · rw [broadcastToTask_cons_mem k v tl tid m hs, deliveriesTo_cons, if_neg hk,
              ih hnd.2 hget]
          exact Nat.zero_add _
        · rw [broadcastToTask_cons_not_mem k v tl tid m hs, ih hnd.2 hget]

/-- C2 counterexample: with the single connection c1 subscribed to task t1, a
task_update message for t1 fanned out by the ws:broadcast handler is
delivered to c1 twice — once via the task fan-out and once via the
unconditional broadcast — so at-most-once delivery is false on the code. -/
theorem subscribed_connection_receives_two_copies :
    hubOneSubscriber = [("c1", ⟨["t1"], true⟩)] ∧
    taskUpdateT1.msgType = .task_update ∧
    deliveriesTo (wsBroadcastHandler hubOneSubscriber taskUpdateT1) "c1" = 2 := by
  decide

/-- C2 amended: per fanned-out message, every registered connection receives
exactly one copy of a broadcastAll message even if task-subscribed; only
subscribers receive the direct broadcastToTask fan-out (a connection
subscribed only to T1 receives no copy of broadcastToTask for T2); but the
ws:broadcast handler delivers a task-scoped message (task_update or
output_delta with a nonempty taskId) twice to each connection subscribed to
that task — one task-fan-out copy plus one broadcast copy — and once to
every other connection; messages without a usable taskId and non-task-scoped
messages are delivered exactly once to every connection. -/
theorem hub_delivery_counts
    (cs : HubClients) (m : WSMessage) (conn tid : String) (c : WSClient)
    (hnd : (cs.map Prod.fst).Nodup) (hget : mapGet cs conn = some c) :
    deliveriesTo (broadcast cs m) conn = 1 ∧
    (tid ∉ c.subscribedTasks →
       deliveriesTo (broadcastToTask cs tid m) conn = 0) ∧
    ((m.msgType = .task_update ∨ m.msgType = .output_delta) →
       m.data.taskId = some tid → tid ≠ "" →
       deliveriesTo (wsBroadcastHandler cs m) conn
         = if tid ∈ c.subscribedTasks then 2 else 1) ∧
    ((m.msgType = .task_update ∨ m.msgType = .output_delta) →
       m.data.taskId = none →
       deliveriesTo (wsBroadcastHandler cs m) conn = 1) ∧
    (m.msgType ≠ .task_update → m.msgType ≠ .output_delta →
       deliveriesTo (wsBroadcastHandler cs m) conn = 1) := by
  refine ⟨deliveriesTo_broadcast_one cs m conn c hnd hget, ?_, ?_, ?_, ?_⟩
  · intro hsub
    rw [deliveriesTo_broadcastToTask cs tid m conn c hnd hget]
    simp [hsub]
  · intro htype htid hne
    have hexp : wsBroadcastHandler cs m = broadcastToTask cs tid m ++ broadcast cs m := by
      rcases htype with h | h <;> simp [wsBroadcastHandler, h, htid, hne]
    rw [hexp, deliveriesTo_append, deliveriesTo_broadcastToTask cs tid m conn c hnd hget,
        deliveriesTo_broadcast_one cs m conn c hnd hget]
    by_cases hs : tid ∈ c.subscribedTasks <;> simp [hs]
  · intro htype htid
    have hexp : wsBroadcastHandler cs m = broadcast cs m := by
      rcases htype with h | h <;> simp [wsBroadcastHandler, h, htid]
    rw [hexp]
    exact deliveriesTo_broadcast_one cs m conn c hnd hget
  · intro h1 h2
    have hexp : wsBroadcastHandler cs m = broadcast cs m := by
      simp [wsBroadcastHandler, h1, h2]
    rw [hexp]
    exact deliveriesTo_broadcast_one cs m conn c hnd hget

/-- Witness for C2 on the one-subscriber hub. -/
theorem hub_delivery_counts_witness :
    deliveriesTo (broadcast hubOneSubscriber taskUpdateT1) "c1" = 1 ∧
    deliveriesTo (wsBroadcastHandler hubOneSubscriber taskUpdateT1) "c1"
      = if "t1" ∈ (WSClient.mk ["t1"] true).subscribedTasks then 2 else 1 :=
  ⟨(hub_delivery_counts hubOneSubscriber taskUpdateT1 "c1" "t1" ⟨["t1"], true⟩
      (by decide) (by decide)).1,
   (hub_delivery_counts hubOneSubscriber taskUpdateT1 "c1" "t1" ⟨["t1"], true⟩
      (by decide) (by decide)).2.2.1 (Or.inl rfl) rfl (by decide)⟩

/-! Claim C9: heartbeat eviction drops the connection and its subscriptions. -/

/-- Every clients-map entry keyed by conn is marked not-alive. -/
def allDeadFor (cs : HubClients) (conn : String) : Prop :=
  ∀ c : WSClient, (conn, c) ∈ cs → c.isAlive = false

theorem mapGet_mem {α : Type} (m : List (String × α)) (r : String) (v : α)
    (h : mapGet m r = some v) : (r, v) ∈ m := by
  induction m with
  | nil => simp [mapGet] at h
  | cons hd tl ih =>
      obtain ⟨k, w⟩ := hd
      by_cases hk : k = r
      · subst hk
        rw [show mapGet ((k, w) :: tl) k = if k = k then some w else mapGet tl k from rfl,
            if_pos rfl] at h
        have : w = v := by injection h
        rw [← this]
        exact List.mem_cons_self _ _
      · rw [show mapGet ((k, w) :: tl) r = if k = r then some w else mapGet tl r from rfl,
            if_neg hk] at h
        exact List.mem_cons_of_mem _ (ih h)

theorem mem_of_mem_mapSet_ne {α : Type} (m : List (String × α)) (k r : String)
    (v w : α) (h : (r, w) ∈ mapSet m k v) (hne : r ≠ k) : (r, w) ∈ m := by
  induction m with
  | nil =>
      simp only [mapSet, List.mem_singleton, Prod.mk.injEq] at h
      exact absurd h.1 hne
  | cons hd tl ih =>
      obtain ⟨k', v'⟩ := hd
      by_cases hk : k' = k
      · simp only [mapSet, if_pos hk] at h
        rcases List.mem_cons.mp h with h1 | h1
        · injection h1 with ha hb
          exact absurd ha hne
        · exact List.mem_cons_of_mem _ h1
      · simp only [mapSet, if_neg hk] at h
        rcases List.mem_cons.mp h with h1 | h1
        · rw [h1]
          exact List.mem_cons_self _ _
        · exact List.mem_cons_of_mem _ (ih h1)

theorem mem_of_mem_mapDelete {α : Type} (m : List (String × α)) (r k : String)
    (v : α) (h : (k, v) ∈ mapDelete m r) : (k, v) ∈ m := by
  induction m with
  | nil => simp [mapDelete] at h
  | cons hd tl ih =>
      obtain ⟨k', v'⟩ := hd
      by_cases hk : k' = r
      · simp only [mapDelete, if_pos hk] at h
        exact List.mem_cons_of_mem _ (ih h)
      · simp only [mapDelete, if_neg hk] at h
        rcases List.mem_cons.mp h with h1 | h1
        · rw [h1]
          exact List.mem_cons_self _ _
        · exact List.mem_cons_of_mem _ (ih h1)

theorem allDeadFor_heartbeatTick (cs : HubClients) (conn : String) :
    allDeadFor (heartbeatTick cs) conn := by
  intro c hc
  simp only [heartbeatTick, List.mem_map, List.mem_filter] at hc
  obtain ⟨p, hp, heq⟩ := hc
  injection heq with h1 h2
  rw [← h2]

theorem allDeadFor_hubStep (cs : HubClients) (conn : String) (e : HubEvent)
    (hdead : allDeadFor cs conn)
    (hp : e ≠ .pong conn) (hc : e ≠ .connection conn) :
    allDeadFor (hubStep cs e) conn := by
  cases e with
  | pong c' =>
      intro c hmem
      have hcc : c' ≠ conn := fun hh => hp (by rw [hh])
      simp only [hubStep, handlePong, List.mem_map] at hmem
      obtain ⟨⟨pk, pv⟩, hpmem, heq⟩ := hmem
      by_cases hpc : pk = c'
      · rw [if_pos hpc] at heq
        injection heq with h1 h2
        exact absurd (hpc ▸ h1) hcc
      · rw [if_neg hpc] at heq
        exact hdead c (heq ▸ hpmem)
  | clientMsg c' msg =>
      cases msg with
      | subscribeTask tid =>
          intro c hmem
          simp only [hubStep, handleClientMessage, List.mem_map] at hmem
          obtain ⟨⟨pk, pv⟩, hpmem, heq⟩ := hmem
          by_cases hpc : pk = c'
          · rw [if_pos hpc] at heq
            injection heq with h1 h2
            rw [← h2]
            exact hdead pv (h1 ▸ hpmem)
          · rw [if_neg hpc] at heq
            exact hdead c (heq ▸ hpmem)
      | unsubscribeTask tid =>
          intro c hmem
          simp only [hubStep, handleClientMessage, List.mem_map] at hmem
          obtain ⟨⟨pk, pv⟩, hpmem, heq⟩ := hmem
          by_cases hpc : pk = c'
          · rw [if_pos hpc] at heq
            injection heq with h1 h2
            rw [← h2]
            exact hdead pv (h1 ▸ hpmem)
          · rw [if_neg hpc] at heq
            exact hdead c (heq ▸ hpmem)
      | ping => exact hdead
      | unknown => exact hdead
  | connection c' =>
      intro c hmem
      have hcc : conn ≠ c' := fun hh => hc (by rw [hh])
      exact hdead c (mem_of_mem_mapSet_ne cs c' conn ⟨[], true⟩ c hmem hcc)
  | close c' =>
      intro c hmem
      exact hdead c (mem_of_mem_mapDelete cs c' conn c hmem)

theorem allDeadFor_hubSteps (cs : HubClients) (conn : String) (evts : List HubEvent)
    (hdead : allDeadFor cs conn)
    (hno : ∀ e ∈ evts, e ≠ HubEvent.pong conn ∧ e ≠ HubEvent.connection conn) :
    allDeadFor (hubSteps cs evts) conn := by
  induction evts generalizing cs with
  | nil => exact hdead
  | cons e rest ih =>
      exact ih (hubStep cs e)
        (allDeadFor_hubStep cs conn e hdead
          (hno e (List.mem_cons_self _ _)).1 (hno e (List.mem_cons_self _ _)).2)
        (fun x hx => hno x (List.mem_cons_of_mem _ hx))

theorem mapGet_heartbeatTick_of_allDead (cs : HubClients) (conn : String)
    (hdead : allDeadFor cs conn) : mapGet (heartbeatTick cs) conn = none := by
  cases h : mapGet (heartbeatTick cs) conn with
  | none => rfl
  | some c =>
      have hmem := mapGet_mem _ _ _ h
      simp only [heartbeatTick, List.mem_map, List.mem_filter] at hmem
      obtain ⟨⟨pk, pv⟩, ⟨hpmem, halive⟩, heq⟩ := hmem
      injection heq with h1 h2
      have hfalse := hdead pv (h1 ▸ hpmem)
      rw [hfalse] at halive
      exact absurd halive Bool.false_ne_true

/-- C9: a registered connection that does not answer the ping of one
heartbeat firing — and therefore misses two consecutive heartbeat pongs — is
no longer registered after the next firing, whatever other hub traffic
(pongs of other connections, subscribe/unsubscribe messages, connects and
disconnects of other connections) happens in between; and since a
connection's task subscriptions live only inside its clients-map record,
the evicted connection retains no subscription entry. -/
theorem missed_pongs_evict_connection
    (cs : HubClients) (conn : String) (evts : List HubEvent)
    (hno : ∀ e ∈ evts, e ≠ HubEvent.pong conn ∧ e ≠ HubEvent.connection conn) :
    mapGet (heartbeatTick (hubSteps (heartbeatTick cs) evts)) conn = none ∧
    subscriptionsOf (heartbeatTick (hubSteps (heartbeatTick cs) evts)) conn = [] := by
  have h1 : allDeadFor (heartbeatTick cs) conn := allDeadFor_heartbeatTick cs conn
  have h2 : allDeadFor (hubSteps (heartbeatTick cs) evts) conn :=
    allDeadFor_hubSteps (heartbeatTick cs) conn evts h1 hno
  have h3 : mapGet (heartbeatTick (hubSteps (heartbeatTick cs) evts)) conn = none :=
    mapGet_heartbeatTick_of_allDead _ conn h2
  exact ⟨h3, by simp [subscriptionsOf, h3]⟩

/-- Witness for C9: the one-subscriber hub with an unrelated pong in between. -/
theorem missed_pongs_evict_connection_witness :
    mapGet (heartbeatTick (hubSteps (heartbeatTick hubOneSubscriber)
      [HubEvent.pong "c2"])) "c1" = none ∧
    subscriptionsOf (heartbeatTick (hubSteps (heartbeatTick hubOneSubscriber)
      [HubEvent.pong "c2"])) "c1" = [] :=
  missed_pongs_evict_connection hubOneSubscriber "c1" [HubEvent.pong "c2"] (by decide)

end Workspace
